import Mathlib

/-!
Verification of the BiliMall-Tracker ingestion/pagination/caching engine
(`src/shiji.py`) against its natural-language specification.

The Python source is shallowly embedded below: dictionaries become
association lists over `String` keys with Python's `d[k] = v` update
semantics, the feed's minor-unit integer prices become rationals after the
source's division by 100, and the worker thread's pagination flags become an
explicit state record.  All definitions are translated from the source file,
with line references in the doc comments.
-/

namespace BiliMall

/-! ## Python dict model

`product_cache` and `min_price_products` are Python dicts keyed by strings
(shiji.py:38-39).  We model a dict as an association list in insertion
order; `setKey` follows Python assignment `d[k] = v`: it replaces the value
in place when the key is present and appends a fresh entry otherwise, so a
map built by `setKey` has one entry per key and `List.length` is `len(d)`. -/

abbrev DictMap (α : Type) := List (String × α)

def lookup {α : Type} : DictMap α → String → Option α
  | [], _ => none
  | e :: rest, k => if e.1 = k then some e.2 else lookup rest k

def setKey {α : Type} (m : DictMap α) (k : String) (v : α) : DictMap α :=
  if (lookup m k).isSome then
    m.map (fun e => if e.1 = k then (k, v) else e)
  else m ++ [(k, v)]

/-- Python `len(d)` for a dict built by `setKey` updates. -/
def size {α : Type} (m : DictMap α) : Nat := m.length

/-! ## Data model -/

/-- A normalized product as built in `WorkerThread.process_response`
(shiji.py:1499-1505).  Prices are rationals: the feed's minor-unit integer
divided by 100. -/
structure Product where
  id : String
  name : String
  price : ℚ
  image : String
  detail_url : String
deriving DecidableEq, Repr

/-- An entry of `min_price_products` as written at shiji.py:1510-1517. -/
structure MinPriceRecord where
  id : String
  name : String
  price : ℚ
  image : String
  url : String
  timestamp : ℚ
deriving DecidableEq, Repr

/-- The data of one min-price observation: the fields of the normalized
product that `process_response` feeds into the min-price update
(shiji.py:1507-1517), plus the observation time. -/
structure Candidate where
  pid : String
  name : String
  price : ℚ
  image : String
  url : String
  timestamp : ℚ
deriving DecidableEq, Repr

def mkMinRecord (c : Candidate) : MinPriceRecord :=
  { id := c.pid, name := c.name, price := c.price, image := c.image,
    url := c.url, timestamp := c.timestamp }

/-! ## Min-Price Index (shiji.py:1507-1517)

The update block in `process_response`:

    if product['name'] not in self.parent.min_price_products or \
       product['price'] < self.parent.min_price_products[product['name']]['price']:
        self.parent.min_price_products[product['name']] = { ... }

The boolean component records whether the assignment executed. -/

def considerCandidateF (mp : DictMap MinPriceRecord) (c : Candidate) :
    DictMap MinPriceRecord × Bool :=
  match lookup mp c.name with
  | none => (setKey mp c.name (mkMinRecord c), true)
  | some r =>
    if c.price < r.price then (setKey mp c.name (mkMinRecord c), true)
    else (mp, false)

def considerCandidate (mp : DictMap MinPriceRecord) (c : Candidate) :
    DictMap MinPriceRecord :=
  (considerCandidateF mp c).1

/-- Processing a sequence of observations in arrival order. -/
def considerSeq (mp : DictMap MinPriceRecord) (cs : List Candidate) :
    DictMap MinPriceRecord :=
  cs.foldl considerCandidate mp

/-- The price currently stored for a name, if any. -/
def storedPrice (mp : DictMap MinPriceRecord) (n : String) : Option ℚ :=
  (lookup mp n).map (fun r => r.price)

/-! ## Alert Evaluator (`ProductMonitor.check_price_alerts`, shiji.py:1295-1307)

    if not self.price_alert_enabled or self.price_alert_threshold <= 0:
        return
    alert_products = []
    for product in products:
        if product['price'] <= self.price_alert_threshold:
            alert_products.append(product)
-/

def check_price_alerts (enabled : Bool) (threshold : ℚ)
    (products : List Product) : List Product :=
  if enabled = false ∨ threshold ≤ 0 then []
  else products.filter (fun p => decide (p.price ≤ threshold))

/-! ## Pagination Controller (`WorkerThread`, shiji.py:1422-1485, 1528-1532)

The worker's pagination variables (`next_id`, `is_refresh`,
`auto_load_more`, `auto_load_pages`) together with the GUI-side
`api_cooldown` that `ProductMonitor.auto_load_more` passes to
`QTimer.singleShot` (shiji.py:1205-1207). -/

structure WorkerState where
  next_id : Option String
  is_refresh : Bool
  auto_load_more : Bool
  auto_load_pages : Int
  api_cooldown : Nat
deriving DecidableEq, Repr

/-- Source `WorkerThread.refresh_data` (shiji.py:1528-1532). -/
def worker_refresh_data (w : WorkerState) : WorkerState :=
  { w with is_refresh := true, auto_load_more := true, auto_load_pages := 3 }

/-- The head of `WorkerThread.run` (shiji.py:1438-1441): a refresh resets
`next_id` to `None` before the request is issued. -/
def runBegin (w : WorkerState) : WorkerState :=
  if w.is_refresh then { w with next_id := none, is_refresh := false } else w

/-- Python truthiness of the `nextId` value at shiji.py:1464-1465:
`None` and the empty string are falsy. -/
def tokenTruthy : Option String → Bool
  | none => false
  | some s => s ≠ ""

/-- The token-handling tail of `WorkerThread.run` on a successful response
(shiji.py:1463-1478).  The second component is the delay after which the
next automatic fetch is scheduled (`auto_load_signal` →
`QTimer.singleShot(api_cooldown, ...)`), or `none` when no further fetch is
scheduled. -/
def onFetchSuccess (w : WorkerState) (nextId : Option String) :
    WorkerState × Option Nat :=
  if tokenTruthy nextId then
    let w1 : WorkerState := { w with next_id := nextId }
    if w1.auto_load_more ∧ w1.auto_load_pages > 1 then
      ({ w1 with auto_load_pages := w1.auto_load_pages - 1 }, some w1.api_cooldown)
    else (w1, none)
  else ({ w with auto_load_more := false }, none)

/-! ## Item Normalizer (`WorkerThread.process_response`, shiji.py:1487-1526)

A raw feed item.  `c2cItemsId` defaults to `''` via `item.get`, never
failing.  `detailDtoList` defaults to `[{}]` when absent; the subscript
`[0]` raises `IndexError` exactly when the field is present but an empty
list.  The price field defaults to `0` when absent; `item.get('price', 0)
/ 100` raises `TypeError` when the value is not a number. -/

inductive PriceField where
  | absent
  | cents (n : Int)
  | malformed
deriving DecidableEq, Repr

structure DetailDto where
  name : Option String
  img : Option String
deriving DecidableEq, Repr

/-- The `{}` placeholder in the `item.get('detailDtoList', [{}])` default. -/
def emptyDetail : DetailDto := { name := none, img := none }

structure RawItem where
  c2cItemsId : Option String
  detailDtoList : Option (List DetailDto)
  price : PriceField
deriving DecidableEq, Repr

inductive ParseErr where
  | indexError
  | typeError
deriving DecidableEq, Repr

/-- The `detail_url` derivation used at shiji.py:1504 and shiji.py:1165. -/
def detailUrl (pid : String) : String :=
  "https://mall.bilibili.com/neul-next/index.html?itemsId=" ++ pid

def mkProduct (pid : String) (d : DetailDto) (cents : Int) : Product :=
  { id := pid,
    name := (d.name.getD "未知商品").trim,
    price := (cents : ℚ) / 100,
    image := "https:" ++ d.img.getD "",
    detail_url := detailUrl pid }

/-- The per-item body of the loop at shiji.py:1495-1505, up to and including
construction of the `product` dict.  A raised exception becomes a
`ParseErr`. -/
def normalizeItem (it : RawItem) : Except ParseErr Product :=
  match (it.detailDtoList.getD [emptyDetail]).head? with
  | none => .error .indexError
  | some detail =>
    match it.price with
    | .malformed => .error .typeError
    | .absent => .ok (mkProduct (it.c2cItemsId.getD "") detail 0)
    | .cents n => .ok (mkProduct (it.c2cItemsId.getD "") detail n)

/-- The observation that a successfully normalized product contributes to
the min-price index (shiji.py:1510-1517); `now` is `time.time()`. -/
def toCandidate (p : Product) (now : ℚ) : Candidate :=
  { pid := p.id, name := p.name, price := p.price, image := p.image,
    url := p.detail_url, timestamp := now }

/-- The item loop of `process_response` (shiji.py:1493-1523): each item is
normalized inside its own `try`; an exception is logged and the loop
continues; a successful item updates the min-price index and is appended
to `products`. -/
def processItems (now : ℚ) :
    DictMap MinPriceRecord → List RawItem → DictMap MinPriceRecord × List Product
  | mp, [] => (mp, [])
  | mp, it :: rest =>
    match normalizeItem it with
    | .error _ => processItems now mp rest
    | .ok p =>
      let res := processItems now (considerCandidate mp (toCandidate p now)) rest
      (res.1, p :: res.2)

/-- Source `process_response` including the response-level code check
(shiji.py:1490-1491): a non-zero code raises `ValueError`, caught by the
outer handler, which leaves the min-price index untouched and returns
`[]`. -/
def process_response (now : ℚ) (mp : DictMap MinPriceRecord)
    (code : Int) (items : List RawItem) : DictMap MinPriceRecord × List Product :=
  if code ≠ 0 then (mp, []) else processItems now mp items

/-! ## Product Cache (`ProductMonitor.update_products`, shiji.py:808-928)

The cache maps a product id to the card created on first sighting; an
already-present id is only restyled as recently refreshed (its stored card,
created at first sighting, keeps its original data).  `last_refresh_ids`
(shiji.py:827) marks the ids of the most recent batch. -/

structure CacheState where
  product_cache : DictMap Product
  last_refresh_ids : List String
  total_products_count : Nat
deriving DecidableEq, Repr

/-- One iteration of the loop at shiji.py:860-898.  The boolean is whether
the product counted as new (`new_products_count` incremented). -/
def upsertProduct (cache : DictMap Product) (p : Product) :
    DictMap Product × Bool :=
  match lookup cache p.id with
  | none => (setKey cache p.id p, true)
  | some _ => (cache, false)

def applyBatch (cache : DictMap Product) : List Product → DictMap Product
  | [] => cache
  | p :: rest => applyBatch (upsertProduct cache p).1 rest

/-- Source `update_products` (shiji.py:808-928) restricted to cache state: an
empty batch returns early (shiji.py:810-814); otherwise
`last_refresh_ids` becomes the batch's id set (shiji.py:827), every batch
product is upserted, and the total count is recomputed (shiji.py:901). -/
def update_products (st : CacheState) (products : List Product) : CacheState :=
  if products = [] then st
  else
    { product_cache := applyBatch st.product_cache products,
      last_refresh_ids := products.map (fun p => p.id),
      total_products_count := (applyBatch st.product_cache products).length }

/-! ## Settings (`load_settings`/`save_settings`, shiji.py:105-138) -/

structure Settings where
  columns_count : Int
  sidebar_columns_count : Int
  api_cooldown : Int
  card_width : Int
  card_height : Int
  price_alert_threshold : ℚ
  price_alert_enabled : Bool
deriving DecidableEq, Repr

/-- The persisted `settings.json` content: each key may be absent, in which
case `settings.get(key, default)` substitutes the default. -/
structure SettingsFile where
  columns_count : Option Int
  sidebar_columns_count : Option Int
  api_cooldown : Option Int
  card_width : Option Int
  card_height : Option Int
  price_alert_threshold : Option ℚ
  price_alert_enabled : Option Bool
deriving DecidableEq, Repr

/-- The defaults from `__init__` (shiji.py:48-56), which coincide with the
`settings.get` defaults at shiji.py:111-117. -/
def defaultSettings : Settings :=
  { columns_count := 8, sidebar_columns_count := 3, api_cooldown := 2000,
    card_width := 150, card_height := 180, price_alert_threshold := 0,
    price_alert_enabled := false }

/-- The field reads of `load_settings` on a parsed file (shiji.py:111-117). -/
def applySettingsFile (f : SettingsFile) : Settings :=
  { columns_count := f.columns_count.getD 8,
    sidebar_columns_count := f.sidebar_columns_count.getD 3,
    api_cooldown := f.api_cooldown.getD 2000,
    card_width := f.card_width.getD 150,
    card_height := f.card_height.getD 180,
    price_alert_threshold := f.price_alert_threshold.getD 0,
    price_alert_enabled := f.price_alert_enabled.getD false }

/-- Source `save_settings` (shiji.py:122-138) writes every key. -/
def save_settings (s : Settings) : SettingsFile :=
  { columns_count := some s.columns_count,
    sidebar_columns_count := some s.sidebar_columns_count,
    api_cooldown := some s.api_cooldown,
    card_width := some s.card_width,
    card_height := some s.card_height,
    price_alert_threshold := some s.price_alert_threshold,
    price_alert_enabled := some s.price_alert_enabled }

/-! ## Persistence of the two caches (shiji.py:386-415, 1142-1196) -/

/-- An entry of `product_cache.json`: `add_product_card` falls back to a
derived detail URL when the stored record lacks one (shiji.py:1077). -/
structure StoredProduct where
  id : String
  name : String
  price : ℚ
  image : String
  detail_url : Option String
deriving DecidableEq, Repr

/-- The label text `f"¥{price:.2f}"` (shiji.py:1048) read back through
`float(text.replace("¥", ""))` (shiji.py:1153-1156): the price rounded to
two decimal places. -/
def round2 (q : ℚ) : ℚ := (Int.floor (q * 100 + 1 / 2) : ℚ) / 100

/-- Source `save_product_cache` (shiji.py:1142-1172): for each cached card it
stores the id, the name-label text, the parsed price-label text, an empty
image (`'image': ''`, shiji.py:1164) and the id-derived detail URL
(shiji.py:1165). -/
def save_product_cache (cache : DictMap Product) : DictMap StoredProduct :=
  cache.map (fun e =>
    (e.1, { id := e.1, name := e.2.name, price := round2 e.2.price,
            image := "", detail_url := some (detailUrl e.1) }))

/-- The card data produced by `add_product_card(data)` for a loaded record
(shiji.py:980-1103): the card carries the given fields, with the detail
URL defaulted from the id when absent (shiji.py:1077). -/
def add_product_card (data : StoredProduct) : Product :=
  { id := data.id, name := data.name, price := data.price,
    image := data.image,
    detail_url := data.detail_url.getD (detailUrl data.id) }

/-- Source `load_product_cache` on a successfully parsed file (shiji.py:1182-1183). -/
def load_product_cache_good (file : DictMap StoredProduct) : DictMap Product :=
  file.map (fun e => (e.1, add_product_card e.2))

/-- An entry of `min_price_history.json`; `load_min_price_products`
substitutes `name.replace(' ', '_')` when the record lacks an id
(shiji.py:405-407). -/
structure StoredMinRecord where
  id : Option String
  name : String
  price : ℚ
  image : String
  url : String
  timestamp : ℚ
deriving DecidableEq, Repr

/-- Source `save_min_price_products` (shiji.py:386-393) dumps the map as is. -/
def save_min_price_products (mp : DictMap MinPriceRecord) :
    DictMap StoredMinRecord :=
  mp.map (fun e =>
    (e.1, { id := some e.2.id, name := e.2.name, price := e.2.price,
            image := e.2.image, url := e.2.url, timestamp := e.2.timestamp }))

/-- Source `load_min_price_products` on a successfully parsed file
(shiji.py:398-408). -/
def load_min_price_products_good (file : DictMap StoredMinRecord) :
    DictMap MinPriceRecord :=
  file.map (fun e =>
    (e.1, { id := e.2.id.getD (e.1.replace " " "_"), name := e.2.name,
            price := e.2.price, image := e.2.image, url := e.2.url,
            timestamp := e.2.timestamp }))

/-! ## Startup loading with degradation (shiji.py:105-120, 395-415, 1174-1196)

Each of the three loaders is wrapped in its own `try`/`except`; a missing
file is skipped (the in-memory default from `__init__` stands) and a file
whose read or parse raises degrades that store alone to its default. -/

inductive FileState (α : Type) where
  | missing
  | corrupt
  | good (v : α)

/-- Source `load_settings` (shiji.py:105-120): missing file is skipped, a raising
read leaves the `__init__` defaults in place. -/
def load_settings : FileState SettingsFile → Settings
  | .good f => applySettingsFile f
  | _ => defaultSettings

/-- Source `load_product_cache` (shiji.py:1174-1196): missing file leaves the
initial empty cache; an exception resets the cache to `{}`. -/
def load_product_cache : FileState (DictMap StoredProduct) → DictMap Product
  | .good f => load_product_cache_good f
  | _ => []

/-- Source `load_min_price_products` (shiji.py:395-415): missing file leaves the
initial empty map; an exception resets the map to `{}`. -/
def load_min_price_products :
    FileState (DictMap StoredMinRecord) → DictMap MinPriceRecord
  | .good f => load_min_price_products_good f
  | _ => []

/-- The three independent loads performed during startup
(shiji.py:57-58 and shiji.py:66). -/
def startup_load (fs : FileState SettingsFile)
    (fc : FileState (DictMap StoredProduct))
    (fm : FileState (DictMap StoredMinRecord)) :
    Settings × DictMap Product × DictMap MinPriceRecord :=
  (load_settings fs, load_product_cache fc, load_min_price_products fm)

/-! ## Write path of the save functions (shiji.py:386-393, 122-138, 1167-1172)

Every save opens its target with `open(path, 'w')`, which truncates the
existing file in place, and then `json.dump`s the new content into it.  The
observable contents of the target file, were the process to crash after
each of these steps, are the truncated empty file and the fully written new
content. -/

def directWriteStates (content : String) : List String := ["", content]

/-- The atomicity property the specification ascribes to `save()`: at every
crash point the target file holds either the previous good contents or the
new contents. -/
def crashSafeAgainst (prev content : String) : Prop :=
  ∀ s ∈ directWriteStates content, s = prev ∨ s = content

instance (prev content : String) : Decidable (crashSafeAgainst prev content) :=
  List.decidableBAll _ _

/-- The `try`/`except` wrapper shared by `save_settings`,
`save_product_cache` and `save_min_price_products`: a write failure is
logged and the function returns normally.  The components are
(savedSuccessfully, errorLogged). -/
inductive WriteAttempt where
  | ok
  | ioError (msg : String)

def saveOutcome : WriteAttempt → Bool × Bool
  | .ok => (true, false)
  | .ioError _ => (false, true)

/-! ## Concrete sample data used by witnesses and counterexamples -/

def candA10 : Candidate :=
  { pid := "1", name := "A", price := 10, image := "", url := "", timestamp := 0 }

def candA8 : Candidate :=
  { pid := "2", name := "A", price := 8, image := "", url := "", timestamp := 0 }

def prod499 : Product :=
  { id := "1", name := "a", price := 499 / 100, image := "", detail_url := "" }

def prod500 : Product :=
  { id := "2", name := "b", price := 5, image := "", detail_url := "" }

def prod501 : Product :=
  { id := "3", name := "c", price := 501 / 100, image := "", detail_url := "" }

def prodImg : Product :=
  { id := "1", name := "A", price := 1, image := "https://i0.example/x.png",
    detail_url := detailUrl "1" }

def sampleWorker : WorkerState :=
  { next_id := some "old", is_refresh := false, auto_load_more := false,
    auto_load_pages := 0, api_cooldown := 2000 }

def rawBadItem : RawItem :=
  { c2cItemsId := some "9", detailDtoList := some [], price := .cents 100 }

def rawGoodItem : RawItem :=
  { c2cItemsId := some "7",
    detailDtoList := some [{ name := some "G", img := some "//img.example/g.png" }],
    price := .cents 250 }

def rawNoPrice : RawItem :=
  { c2cItemsId := some "5", detailDtoList := none, price := .absent }

def sampleSettings : Settings :=
  { columns_count := 4, sidebar_columns_count := 2, api_cooldown := 3000,
    card_width := 100, card_height := 120, price_alert_threshold := 7 / 2,
    price_alert_enabled := true }

def sampleMinRecord : MinPriceRecord :=
  { id := "1", name := "A", price := 2, image := "i", url := "u", timestamp := 1 }

def sampleCacheEntry : Product :=
  { id := "1", name := "A", price := 499 / 100, image := "to-be-dropped",
    detail_url := detailUrl "1" }

/-! ## Lemmas about the dict model -/

theorem lookup_map_replace {α : Type} (m : DictMap α) (k : String) (v : α)
    (k' : String) :
    lookup (m.map (fun e => if e.1 = k then (k, v) else e)) k'
      = if k' = k then (lookup m k).map (fun _ => v) else lookup m k' := by
  induction m with
  | nil => simp [lookup]
  | cons e rest ih =>
    by_cases hek : e.1 = k
    · by_cases hk : k' = k
      · subst hk
        simp [lookup, hek]
      · have hkk : ¬k = k' := fun h => hk h.symm
        simp [lookup, hek, hk, hkk, ih]
    · by_cases hk : k' = k
      · subst hk
        simp [lookup, hek, ih]
      · simp only [List.map_cons, if_neg hek, lookup, ih, if_neg hk]

theorem lookup_append_single {α : Type} (m : DictMap α) (k : String) (v : α)
    (k' : String) :
    lookup (m ++ [(k, v)]) k'
      = match lookup m k' with
        | some x => some x
        | none => if k' = k then some v else none := by
  induction m with
  | nil =>
    by_cases hk : k' = k
    · simp [lookup, hk]
    · have hkk : ¬k = k' := fun h => hk h.symm
      simp [lookup, hk, hkk]
  | cons e rest ih =>
    by_cases he : e.1 = k'
    · simp [lookup, he]
    · simp [lookup, he, ih]

theorem lookup_setKey_self {α : Type} (m : DictMap α) (k : String) (v : α) :
    lookup (setKey m k v) k = some v := by
  unfold setKey
  cases hm : lookup m k with
  | none => simp [hm, lookup_append_single]
  | some x => simp [hm, lookup_map_replace]

theorem lookup_setKey_ne {α : Type} (m : DictMap α) (k : String) (v : α)
    (k' : String) (h : k' ≠ k) :
    lookup (setKey m k v) k' = lookup m k' := by
  unfold setKey
  cases hm : lookup m k with
  | none =>
    simp only [hm, Option.isSome_none, Bool.false_eq_true, if_false,
      lookup_append_single, if_neg h]
    cases lookup m k' <;> rfl
  | some x => simp [hm, lookup_map_replace, if_neg h]

theorem length_setKey_present {α : Type} (m : DictMap α) (k : String) (v : α)
    (h : (lookup m k).isSome) : (setKey m k v).length = m.length := by
  unfold setKey
  simp [h]

theorem length_setKey_absent {α : Type} (m : DictMap α) (k : String) (v : α)
    (h : lookup m k = none) : (setKey m k v).length = m.length + 1 := by
  unfold setKey
  simp [h]

/-! ## Lemmas about the min-price index -/

theorem lookup_considerCandidate_ne (mp : DictMap MinPriceRecord)
    (c : Candidate) (n : String) (h : n ≠ c.name) :
    lookup (considerCandidate mp c) n = lookup mp n := by
  unfold considerCandidate considerCandidateF
  cases hm : lookup mp c.name with
  | none => simp [lookup_setKey_ne _ _ _ _ h]
  | some r =>
    by_cases hlt : c.price < r.price
    · simp [hlt, lookup_setKey_ne _ _ _ _ h]
    · simp [hlt]

theorem lookup_considerCandidate_of_none (mp : DictMap MinPriceRecord)
    (c : Candidate) (h : lookup mp c.name = none) :
    lookup (considerCandidate mp c) c.name = some (mkMinRecord c) := by
  unfold considerCandidate considerCandidateF
  simp [h, lookup_setKey_self]

theorem lookup_considerCandidate_of_some (mp : DictMap MinPriceRecord)
    (c : Candidate) (r : MinPriceRecord) (h : lookup mp c.name = some r) :
    lookup (considerCandidate mp c) c.name
      = if c.price < r.price then some (mkMinRecord c) else some r := by
  unfold considerCandidate considerCandidateF
  by_cases hlt : c.price < r.price
  · simp [h, hlt, lookup_setKey_self]
  · simp [h, hlt]

/-- One observation can only lower (or keep) a stored price, for any name. -/
theorem consider_price_mono (mp : DictMap MinPriceRecord) (c : Candidate)
    (n : String) (r : MinPriceRecord) (h : lookup mp n = some r) :
    ∃ r', lookup (considerCandidate mp c) n = some r' ∧ r'.price ≤ r.price := by
  by_cases hn : n = c.name
  · subst hn
    rw [lookup_considerCandidate_of_some mp c r h]
    by_cases hlt : c.price < r.price
    · exact ⟨mkMinRecord c, by simp [hlt], le_of_lt hlt⟩
    · exact ⟨r, by simp [hlt], le_refl _⟩
  · exact ⟨r, by rw [lookup_considerCandidate_ne _ _ _ hn, h], le_refl _⟩

/-- Across any observation sequence a stored price never increases. -/
theorem considerSeq_price_mono (cs : List Candidate) :
    ∀ (mp : DictMap MinPriceRecord) (n : String) (r : MinPriceRecord),
      lookup mp n = some r →
      ∃ r', lookup (considerSeq mp cs) n = some r' ∧ r'.price ≤ r.price := by
  induction cs with
  | nil => exact fun mp n r h => ⟨r, h, le_refl _⟩
  | cons c rest ih =>
    intro mp n r h
    obtain ⟨r1, h1, hle1⟩ := consider_price_mono mp c n r h
    obtain ⟨r2, h2, hle2⟩ := ih (considerCandidate mp c) n r1 h1
    exact ⟨r2, h2, le_trans hle2 hle1⟩

/-- After a same-name observation sequence starting from a stored record,
the stored price is the least of the old price and all observed prices. -/
theorem considerSeq_min_char (cs : List Candidate) :
    ∀ (mp : DictMap MinPriceRecord) (n : String) (r : MinPriceRecord),
      lookup mp n = some r → (∀ c ∈ cs, c.name = n) →
      ∃ q, (lookup (considerSeq mp cs) n).map (fun x => x.price) = some q ∧
        (q = r.price ∨ q ∈ cs.map (fun c => c.price)) ∧ q ≤ r.price ∧
        ∀ p ∈ cs.map (fun c => c.price), q ≤ p := by
  induction cs with
  | nil => exact fun mp n r h _ => ⟨r.price, by simp [considerSeq, h], Or.inl rfl, le_refl _, by simp⟩
  | cons c rest ih =>
    intro mp n r h hn
    have hcn : c.name = n := hn c (by simp)
    have hstep := lookup_considerCandidate_of_some mp c r (by rw [hcn]; exact h)
    rw [hcn] at hstep
    by_cases hlt : c.price < r.price
    · rw [if_pos hlt] at hstep
      obtain ⟨q, hq, hmem, hle, hlb⟩ :=
        ih (considerCandidate mp c) n (mkMinRecord c) hstep
          (fun x hx => hn x (by simp [hx]))
      refine ⟨q, hq, ?_, ?_, ?_⟩
      · rcases hmem with hq1 | hq2
        · exact Or.inr (by simp [hq1, mkMinRecord])
        · exact Or.inr (by simp [hq2])
      · exact le_trans hle (by simp [mkMinRecord, le_of_lt hlt])
      · intro p hp
        rw [List.map_cons] at hp
        rcases List.mem_cons.mp hp with hp1 | hp2
        · exact hp1 ▸ le_trans hle (by simp [mkMinRecord])
        · exact hlb p hp2
    · rw [if_neg hlt] at hstep
      have hrc : r.price ≤ c.price := le_of_not_lt hlt
      obtain ⟨q, hq, hmem, hle, hlb⟩ :=
        ih (considerCandidate mp c) n r hstep (fun x hx => hn x (by simp [hx]))
      refine ⟨q, hq, ?_, hle, ?_⟩
      · rcases hmem with hq1 | hq2
        · exact Or.inl hq1
        · exact Or.inr (by simp [hq2])
      · intro p hp
        rw [List.map_cons] at hp
        rcases List.mem_cons.mp hp with hp1 | hp2
        · exact hp1 ▸ le_trans hle hrc
        · exact hlb p hp2

/-- Starting with no record for the name, the stored price after a
same-name observation sequence is the least observed price. -/
theorem considerSeq_min_of_none (mp : DictMap MinPriceRecord) (n : String)
    (cs : List Candidate) (h0 : lookup mp n = none) (hne : cs ≠ [])
    (hn : ∀ c ∈ cs, c.name = n) :
    ∃ q, (lookup (considerSeq mp cs) n).map (fun x => x.price) = some q ∧
      q ∈ cs.map (fun c => c.price) ∧ ∀ p ∈ cs.map (fun c => c.price), q ≤ p := by
  cases cs with
  | nil => exact absurd rfl hne
  | cons c rest =>
    have hcn : c.name = n := hn c (by simp)
    have hstep := lookup_considerCandidate_of_none mp c (by rw [hcn]; exact h0)
    rw [hcn] at hstep
    obtain ⟨q, hq, hmem, hle, hlb⟩ :=
      considerSeq_min_char rest (considerCandidate mp c) n (mkMinRecord c) hstep
        (fun x hx => hn x (by simp [hx]))
    refine ⟨q, hq, ?_, ?_⟩
    · rcases hmem with hq1 | hq2
      · exact by simp [hq1, mkMinRecord]
      · exact by simp [hq2]
    · intro p hp
      rw [List.map_cons] at hp
      rcases List.mem_cons.mp hp with hp1 | hp2
      · exact hp1 ▸ le_trans hle (by simp [mkMinRecord])
      · exact hlb p hp2

/-! ## Claim theorems -/

/-- C1: For every sequence of `considerCandidate` observations for a fixed
product name, the Min-Price Index record for that name afterwards holds a
price equal to the minimum of all prices observed for that name (stated as:
an observed price that bounds every observed price from below),
independent of the arrival order of the observations; the stored price
never increases across any sequence of `considerCandidate` calls, and the
record is overwritten exactly when a newly observed price is strictly
lower than the stored one or no record exists for that name. -/
theorem C1_min_price_index (mp : DictMap MinPriceRecord) (n : String)
    (cs : List Candidate) (h0 : lookup mp n = none) (hne : cs ≠ [])
    (hn : ∀ c ∈ cs, c.name = n) :
    (∃ q, (lookup (considerSeq mp cs) n).map (fun x => x.price) = some q ∧
        q ∈ cs.map (fun c => c.price) ∧ ∀ p ∈ cs.map (fun c => c.price), q ≤ p)
    ∧ (∀ cs', cs.Perm cs' →
        (lookup (considerSeq mp cs') n).map (fun x => x.price)
          = (lookup (considerSeq mp cs) n).map (fun x => x.price))
    ∧ (∀ (mp' : DictMap MinPriceRecord) (os : List Candidate) (n' : String)
          (r : MinPriceRecord), lookup mp' n' = some r →
        ∃ r', lookup (considerSeq mp' os) n' = some r' ∧ r'.price ≤ r.price)
    ∧ (∀ (mp' : DictMap MinPriceRecord) (c : Candidate),
        (considerCandidateF mp' c).2 = true ↔
          (lookup mp' c.name = none ∨
            ∃ r, lookup mp' c.name = some r ∧ c.price < r.price)) := by
  refine ⟨considerSeq_min_of_none mp n cs h0 hne hn, ?_, ?_, ?_⟩
  · intro cs' hperm
    have hne' : cs' ≠ [] := by
      intro h
      subst h
      exact hne (List.length_eq_zero.mp (by simpa using hperm.length_eq))
    have hn' : ∀ c ∈ cs', c.name = n := fun c hc => hn c (hperm.mem_iff.mpr hc)
    obtain ⟨q, hq, hqm, hqlb⟩ := considerSeq_min_of_none mp n cs h0 hne hn
    obtain ⟨q', hq', hqm', hqlb'⟩ := considerSeq_min_of_none mp n cs' h0 hne' hn'
    have hpm : (cs.map (fun c => c.price)).Perm (cs'.map (fun c => c.price)) :=
      hperm.map _
    have h1 : q ≤ q' := hqlb q' (hpm.mem_iff.mpr hqm')
    have h2 : q' ≤ q := hqlb' q (hpm.mem_iff.mp hqm)
    rw [hq, hq']
    exact congrArg some (le_antisymm h2 h1)
  · exact fun mp' os n' r h => considerSeq_price_mono os mp' n' r h
  · intro mp' c
    unfold considerCandidateF
    cases hm : lookup mp' c.name with
    | none => simp
    | some r =>
      by_cases hlt : c.price < r.price
      · simp [hlt]
      · simp [hlt]

/-- Witness for C1 at the spec scenario: observations of prices 10 then 8
for name "A" starting from an empty index. -/
theorem C1_min_price_index_witness :
    lookup ([] : DictMap MinPriceRecord) "A" = none ∧
    ([candA10, candA8] ≠ ([] : List Candidate)) ∧
    (∀ c ∈ [candA10, candA8], c.name = "A") ∧
    (∃ q, (lookup (considerSeq [] [candA10, candA8]) "A").map (fun x => x.price)
        = some q ∧
      q ∈ [candA10, candA8].map (fun c => c.price) ∧
      ∀ p ∈ [candA10, candA8].map (fun c => c.price), q ≤ p) :=
  ⟨rfl, by decide, by decide,
    (C1_min_price_index [] "A" [candA10, candA8] rfl (by decide) (by decide)).1⟩

/-- C2: upserting a record whose id is not yet in the Product Cache
increases the cache size by exactly one and yields isNew=true; upserting a
present id leaves the size unchanged, yields isNew=false, keeps the stored
record (hence its first-sighting data) unchanged, and the batch marks the
id as most recently refreshed (the source's rendering of a `lastSeenAt`
bump, shiji.py:827). -/
theorem C2_product_cache_upsert (cache : DictMap Product) (p : Product)
    (st : CacheState) (batch : List Product) :
    (lookup cache p.id = none →
        size (upsertProduct cache p).1 = size cache + 1 ∧
        (upsertProduct cache p).2 = true)
    ∧ (∀ q, lookup cache p.id = some q →
        size (upsertProduct cache p).1 = size cache ∧
        (upsertProduct cache p).2 = false ∧
        lookup (upsertProduct cache p).1 p.id = some q)
    ∧ (p ∈ batch → p.id ∈ (update_products st batch).last_refresh_ids) := by
  refine ⟨?_, ?_, ?_⟩
  · intro h
    simp [upsertProduct, h, size, length_setKey_absent cache p.id p h]
  · intro q h
    simp [upsertProduct, h, size]
  · intro hp
    have hbne : ¬batch = [] := by
      intro h
      subst h
      simp at hp
    simp only [update_products, if_neg hbne]
    exact List.mem_map_of_mem _ hp

/-- Witness for C2: inserting into the empty cache. -/
theorem C2_product_cache_upsert_witness :
    lookup ([] : DictMap Product) prod499.id = none ∧
    (size (upsertProduct [] prod499).1 = size ([] : DictMap Product) + 1 ∧
      (upsertProduct ([] : DictMap Product) prod499).2 = true) :=
  ⟨rfl, (C2_product_cache_upsert [] prod499 ⟨[], [], 0⟩ [prod499]).1 rfl⟩

/-- C3: the alert evaluator returns exactly the records with price at or
below the threshold when enabled with a positive threshold, and an empty
sequence whenever disabled or the threshold is non-positive; with
threshold 5.00 and prices 4.99, 5.00, 5.01 it returns the first two
records (the boundary price is included). -/
theorem C3_alert_evaluator (enabled : Bool) (threshold : ℚ)
    (products : List Product) :
    ((enabled = false ∨ threshold ≤ 0) →
        check_price_alerts enabled threshold products = [])
    ∧ (enabled = true → 0 < threshold →
        check_price_alerts enabled threshold products
          = products.filter (fun p => decide (p.price ≤ threshold)))
    ∧ check_price_alerts true 5 [prod499, prod500, prod501]
        = [prod499, prod500] := by
  refine ⟨?_, ?_, ?_⟩
  · intro h
    unfold check_price_alerts
    rw [if_pos h]
  · intro he ht
    have hno : ¬(enabled = false ∨ threshold ≤ 0) := by
      rintro (h | h)
      · rw [he] at h
        cases h
      · exact absurd h (not_le.mpr ht)
    unfold check_price_alerts
    rw [if_neg hno]
  · norm_num [check_price_alerts, prod499, prod500, prod501, List.filter]

/-- Witness for C3 at a disabled configuration. -/
theorem C3_alert_evaluator_witness :
    ((false : Bool) = false ∨ (3 : ℚ) ≤ 0) ∧
    check_price_alerts false 3 [prod500] = [] :=
  ⟨Or.inl rfl, (C3_alert_evaluator false 3 [prod500]).1 (Or.inl rfl)⟩

/-- C4: a refresh resets the continuation token to null and the automatic
page budget to 3 (the issued request carries a null token); a successful
fetch with a non-empty token while more than one automatic page remains
decrements the budget and schedules the next fetch after the cooldown, so
a refresh whose first fetch returns "t1" schedules a second fetch with a
budget of 2; if that second fetch returns no token, no third fetch is
scheduled. -/
theorem C4_refresh_pagination (w : WorkerState) (t2 : Option String)
    (h2 : tokenTruthy t2 = false) :
    (runBegin (worker_refresh_data w)).next_id = none
    ∧ (runBegin (worker_refresh_data w)).auto_load_pages = 3
    ∧ (runBegin (worker_refresh_data w)).auto_load_more = true
    ∧ (onFetchSuccess (runBegin (worker_refresh_data w)) (some "t1")).2
        = some w.api_cooldown
    ∧ (onFetchSuccess (runBegin (worker_refresh_data w))
        (some "t1")).1.auto_load_pages = 2
    ∧ (∀ (v : WorkerState) (t : Option String),
        tokenTruthy t = true → v.auto_load_more = true → v.auto_load_pages > 1 →
        (onFetchSuccess v t).1.auto_load_pages = v.auto_load_pages - 1 ∧
        (onFetchSuccess v t).2 = some v.api_cooldown)
    ∧ (onFetchSuccess
        (runBegin (onFetchSuccess (runBegin (worker_refresh_data w))
          (some "t1")).1) t2).2 = none := by
  refine ⟨by simp [worker_refresh_data, runBegin],
    by simp [worker_refresh_data, runBegin],
    by simp [worker_refresh_data, runBegin], ?_, ?_, ?_, ?_⟩
  · simp [worker_refresh_data, runBegin, onFetchSuccess, tokenTruthy]
  · simp [worker_refresh_data, runBegin, onFetchSuccess, tokenTruthy]
  · intro v t ht hm hp
    constructor
    · simp [onFetchSuccess, ht, hm, hp]
    · simp [onFetchSuccess, ht, hm, hp]
  · have ht1 : tokenTruthy (some "t1") = true := by decide
    simp [worker_refresh_data, runBegin, onFetchSuccess, ht1, h2]

/-- Witness for C4 with the second fetch returning no token. -/
theorem C4_refresh_pagination_witness :
    tokenTruthy none = false ∧
    (onFetchSuccess
      (runBegin (onFetchSuccess (runBegin (worker_refresh_data sampleWorker))
        (some "t1")).1) none).2 = none :=
  ⟨rfl, (C4_refresh_pagination sampleWorker none rfl).2.2.2.2.2.2⟩

/-- C5: a successful fetch with an empty or absent nextToken schedules no
further automatic continuation fetch and disables auto-chaining (the
worker returns to rest), for every mode and page budget. -/
theorem C5_token_exhausted_idle (w : WorkerState) (t : Option String)
    (h : tokenTruthy t = false) :
    (onFetchSuccess w t).2 = none ∧
    (onFetchSuccess w t).1.auto_load_more = false := by
  constructor
  · simp [onFetchSuccess, h]
  · simp [onFetchSuccess, h]

/-- Witness for C5 at an absent token. -/
theorem C5_token_exhausted_idle_witness :
    tokenTruthy none = false ∧
    ((onFetchSuccess sampleWorker none).2 = none ∧
      (onFetchSuccess sampleWorker none).1.auto_load_more = false) :=
  ⟨rfl, C5_token_exhausted_idle sampleWorker none rfl⟩


/-! ## Round-trip helper lemmas -/

/-- A whole-cent price survives the two-decimal label format. -/
theorem round2_cents (n : ℤ) : round2 ((n : ℚ) / 100) = (n : ℚ) / 100 := by
  unfold round2
  have h1 : ((n : ℚ) / 100) * 100 + 1 / 2 = (n : ℚ) + 1 / 2 := by
    field_simp
  rw [h1]
  have h2 : Int.floor ((n : ℚ) + 1 / 2) = n := by
    rw [add_comm, Int.floor_add_int]
    norm_num
  rw [h2]

theorem map_entry_id {α : Type} (f : String × α → String × α)
    (hf : ∀ e, f e = e) (m : DictMap α) : m.map f = m := by
  induction m with
  | nil => rfl
  | cons e rest ih => rw [List.map_cons, hf e, ih]

theorem min_price_roundtrip (m : DictMap MinPriceRecord) :
    load_min_price_products_good (save_min_price_products m) = m := by
  rw [load_min_price_products_good, save_min_price_products, List.map_map]
  exact map_entry_id _ (fun e => rfl) m

theorem product_cache_roundtrip_aux (c : DictMap Product)
    (hprice : ∀ e ∈ c, ∃ n : ℤ, e.2.price = (n : ℚ) / 100)
    (hid : ∀ e ∈ c, e.2.id = e.1)
    (hurl : ∀ e ∈ c, e.2.detail_url = detailUrl e.1) :
    load_product_cache_good (save_product_cache c)
      = c.map (fun e => (e.1, { e.2 with image := "" })) := by
  induction c with
  | nil => rfl
  | cons e rest ih =>
    obtain ⟨n, hn⟩ := hprice e (by simp)
    have hie := hid e (by simp)
    have hue := hurl e (by simp)
    have ht := ih (fun x hx => hprice x (by simp [hx]))
      (fun x hx => hid x (by simp [hx])) (fun x hx => hurl x (by simp [hx]))
    simp only [save_product_cache, load_product_cache_good, List.map_cons] at ht ⊢
    rw [ht]
    congr 1
    simp [add_product_card, hn, round2_cents n, hie, hue]

/-- C6 (as stated) fails: a cached record with a non-empty image URL does
not survive the save/load round trip, because `save_product_cache` stores
an empty image (shiji.py:1164). -/
theorem C6_roundtrip_counterexample :
    load_product_cache_good (save_product_cache [("1", prodImg)])
      ≠ [("1", prodImg)] := by
  intro h
  simp [save_product_cache, load_product_cache_good, add_product_card,
    prodImg] at h

/-- C6 amended: save followed by load reproduces equal Settings and an
equal Min-Price Index, and reproduces the Product Cache up to each
record's image URL, which is reset to the empty string; ids, names,
whole-cent prices and the id-derived detail URLs are preserved. -/
theorem C6_persistence_roundtrip (s : Settings) (c : DictMap Product)
    (m : DictMap MinPriceRecord)
    (hprice : ∀ e ∈ c, ∃ n : ℤ, e.2.price = (n : ℚ) / 100)
    (hid : ∀ e ∈ c, e.2.id = e.1)
    (hurl : ∀ e ∈ c, e.2.detail_url = detailUrl e.1) :
    applySettingsFile (save_settings s) = s
    ∧ load_min_price_products_good (save_min_price_products m) = m
    ∧ load_product_cache_good (save_product_cache c)
        = c.map (fun e => (e.1, { e.2 with image := "" })) :=
  ⟨rfl, min_price_roundtrip m, product_cache_roundtrip_aux c hprice hid hurl⟩

/-- Witness for the amended C6 on singleton stores. -/
theorem C6_persistence_roundtrip_witness :
    (∀ e ∈ [("1", sampleCacheEntry)], ∃ n : ℤ, e.2.price = (n : ℚ) / 100) ∧
    (∀ e ∈ [("1", sampleCacheEntry)], e.2.id = e.1) ∧
    (∀ e ∈ [("1", sampleCacheEntry)], e.2.detail_url = detailUrl e.1) ∧
    (applySettingsFile (save_settings sampleSettings) = sampleSettings
      ∧ load_min_price_products_good
          (save_min_price_products [("A", sampleMinRecord)])
          = [("A", sampleMinRecord)]
      ∧ load_product_cache_good (save_product_cache [("1", sampleCacheEntry)])
          = [("1", sampleCacheEntry)].map
              (fun e => (e.1, { e.2 with image := "" }))) := by
  have hp : ∀ e ∈ [("1", sampleCacheEntry)], ∃ n : ℤ, e.2.price = (n : ℚ) / 100 := by
    intro e he
    simp only [List.mem_singleton] at he
    subst he
    exact ⟨499, by norm_num [sampleCacheEntry]⟩
  have hi : ∀ e ∈ [("1", sampleCacheEntry)], e.2.id = e.1 := by
    intro e he
    simp only [List.mem_singleton] at he
    subst he
    rfl
  have hu : ∀ e ∈ [("1", sampleCacheEntry)], e.2.detail_url = detailUrl e.1 := by
    intro e he
    simp only [List.mem_singleton] at he
    subst he
    rfl
  exact ⟨hp, hi, hu,
    C6_persistence_roundtrip sampleSettings [("1", sampleCacheEntry)]
      [("A", sampleMinRecord)] hp hi hu⟩

/-- C7: the three persisted stores load independently; a missing or corrupt
store degrades to its empty/default value alone while the others load
normally, and startup always completes (the load is a total function of
the three file states). -/
theorem C7_independent_degradation (fs fs' : FileState SettingsFile)
    (fc fc' : FileState (DictMap StoredProduct))
    (fm fm' : FileState (DictMap StoredMinRecord)) :
    startup_load fs fc fm
      = (load_settings fs, load_product_cache fc, load_min_price_products fm)
    ∧ (startup_load fs fc' fm').1 = (startup_load fs fc fm).1
    ∧ (startup_load fs' fc fm').2.1 = (startup_load fs fc fm).2.1
    ∧ (startup_load fs' fc' fm).2.2 = (startup_load fs fc fm).2.2
    ∧ load_settings .missing = defaultSettings
    ∧ load_settings .corrupt = defaultSettings
    ∧ load_product_cache .missing = []
    ∧ load_product_cache .corrupt = []
    ∧ load_min_price_products .missing = []
    ∧ load_min_price_products .corrupt = [] :=
  ⟨rfl, rfl, rfl, rfl, rfl, rfl, rfl, rfl, rfl, rfl⟩

/-- Witness for C7 at concrete corrupt file states. -/
theorem C7_independent_degradation_witness :
    load_settings FileState.corrupt = defaultSettings ∧
    load_product_cache FileState.corrupt = [] ∧
    load_min_price_products FileState.corrupt = [] :=
  ⟨(C7_independent_degradation .corrupt .missing .corrupt .missing .corrupt
      .missing).2.2.2.2.2.1,
    (C7_independent_degradation .corrupt .missing .corrupt .missing .corrupt
      .missing).2.2.2.2.2.2.2.1,
    (C7_independent_degradation .corrupt .missing .corrupt .missing .corrupt
      .missing).2.2.2.2.2.2.2.2.2⟩

/-- C8 (as stated) fails: the saves truncate the target in place before
rewriting it, so the crash state right after truncation is the empty file,
which is neither the previous good contents nor the new contents. -/
theorem C8_crash_safety_counterexample : ¬crashSafeAgainst "old" "new" := by
  decide

/-- C8 amended: the saves write by truncate-then-rewrite, so whenever both
the previous contents and the new contents are non-empty some crash point
leaves the file equal to neither (the truncated empty file); write
failures are logged and non-fatal (the wrapper always returns normally,
recording the error). -/
theorem C8_truncate_write (prev content : String) (hp : prev ≠ "")
    (hc : content ≠ "") :
    ¬crashSafeAgainst prev content
    ∧ (∀ msg, saveOutcome (.ioError msg) = (false, true))
    ∧ saveOutcome .ok = (true, false) := by
  refine ⟨?_, fun msg => rfl, rfl⟩
  intro h
  rcases h "" (by simp [directWriteStates]) with h1 | h1
  · exact hp h1.symm
  · exact hc h1.symm

/-- Witness for the amended C8. -/
theorem C8_truncate_write_witness :
    ("old" : String) ≠ "" ∧ ("new" : String) ≠ "" ∧
    ¬crashSafeAgainst "old" "new" :=
  ⟨by decide, by decide, (C8_truncate_write "old" "new" (by decide) (by decide)).1⟩

/-- The products produced by the item loop are exactly the successfully
normalized items, in order, independent of the min-price map. -/
theorem processItems_products (now : ℚ) (items : List RawItem) :
    ∀ mp, (processItems now mp items).2
      = items.filterMap (fun it => (normalizeItem it).toOption) := by
  induction items with
  | nil => exact fun mp => rfl
  | cons it rest ih =>
    intro mp
    cases hn : normalizeItem it with
    | error e => simp [processItems, hn, ih, Except.toOption]
    | ok p => simp [processItems, hn, ih, Except.toOption]

/-- C9: a malformed raw item yields a `ParseErr` and is skipped; every
remaining well-formed item in the batch is still normalized and processed
— processing the batch with the malformed item equals processing the
batch without it, and the emitted products are exactly the successfully
normalized items. -/
theorem C9_malformed_item_skipped (mp : DictMap MinPriceRecord) (now : ℚ)
    (pre post : List RawItem) (bad : RawItem) (e : ParseErr)
    (hbad : normalizeItem bad = .error e) :
    processItems now mp (pre ++ bad :: post) = processItems now mp (pre ++ post)
    ∧ (processItems now mp (pre ++ bad :: post)).2
        = (pre ++ post).filterMap (fun it => (normalizeItem it).toOption) := by
  constructor
  · induction pre generalizing mp with
    | nil => simp [processItems, hbad]
    | cons it pre' ih =>
      cases hn : normalizeItem it with
      | error e2 => simp [processItems, hn, ih]
      | ok p => simp [processItems, hn, ih]
  · rw [processItems_products]
    simp [List.filterMap_append, List.filterMap_cons, hbad, Except.toOption]

/-- Witness for C9: a batch with an empty `detailDtoList` item between two
well-formed items. -/
theorem C9_malformed_item_skipped_witness :
    normalizeItem rawBadItem = Except.error ParseErr.indexError ∧
    processItems 0 [] ([rawGoodItem] ++ rawBadItem :: [rawGoodItem])
      = processItems 0 [] ([rawGoodItem] ++ [rawGoodItem]) :=
  ⟨rfl, (C9_malformed_item_skipped [] 0 [rawGoodItem] [rawGoodItem] rawBadItem
    ParseErr.indexError rfl).1⟩

/-- Feeding a zero-priced observation to the min-price index leaves a
record with price 0 for its name (when no stored price is negative). -/
theorem consider_zero_sets (mp : DictMap MinPriceRecord) (c : Candidate)
    (hc : c.price = 0)
    (h0 : ∀ r, lookup mp c.name = some r → 0 ≤ r.price) :
    ∃ r', lookup (considerCandidate mp c) c.name = some r' ∧ r'.price = 0 := by
  cases hm : lookup mp c.name with
  | none =>
    exact ⟨mkMinRecord c, lookup_considerCandidate_of_none mp c hm,
      by simp [mkMinRecord, hc]⟩
  | some r =>
    have hr := h0 r hm
    rw [lookup_considerCandidate_of_some mp c r hm]
    by_cases hlt : c.price < r.price
    · exact ⟨mkMinRecord c, by rw [if_pos hlt], by simp [mkMinRecord, hc]⟩
    · refine ⟨r, by rw [if_neg hlt], ?_⟩
      have hcr : r.price ≤ c.price := le_of_not_lt hlt
      rw [hc] at hcr
      exact le_antisymm hcr hr

/-- A stored price of 0 survives any sequence of non-negatively-priced
observations. -/
theorem zero_floor_stays (cs : List Candidate) :
    ∀ (mp : DictMap MinPriceRecord) (n : String),
      (∃ r, lookup mp n = some r ∧ r.price = 0) →
      (∀ c ∈ cs, 0 ≤ c.price) →
      ∃ r', lookup (considerSeq mp cs) n = some r' ∧ r'.price = 0 := by
  induction cs with
  | nil => exact fun mp n h _ => h
  | cons c rest ih =>
    rintro mp n ⟨r, hr, hr0⟩ hcs
    by_cases hn : n = c.name
    · subst hn
      have hnlt : ¬c.price < r.price := by
        rw [hr0]
        exact not_lt.mpr (hcs c (by simp))
      have hstep : lookup (considerCandidate mp c) c.name = some r := by
        rw [lookup_considerCandidate_of_some mp c r hr, if_neg hnlt]
      exact ih (considerCandidate mp c) c.name ⟨r, hstep, hr0⟩
        (fun x hx => hcs x (by simp [hx]))
    · have hstep : lookup (considerCandidate mp c) n = some r := by
        rw [lookup_considerCandidate_ne mp c n hn]
        exact hr
      exact ih (considerCandidate mp c) n ⟨r, hstep, hr0⟩
        (fun x hx => hcs x (by simp [hx]))

/-- C10: a raw feed item with an absent minor-unit price field normalizes
without failure to a record with price 0; feeding that record to the
Min-Price Index leaves the record for its name at price 0 (given no
negative stored price), and no later sequence of observations with
non-negative prices ever changes it — the recorded minimum is permanently
0 thereafter. -/
theorem C10_absent_price_floor (it : RawItem) (mp : DictMap MinPriceRecord)
    (now : ℚ) (hp : it.price = PriceField.absent)
    (hd : it.detailDtoList ≠ some []) :
    ∃ p, normalizeItem it = .ok p ∧ p.price = 0 ∧
      ((∀ r, lookup mp p.name = some r → 0 ≤ r.price) →
        ∀ cs : List Candidate, (∀ c ∈ cs, 0 ≤ c.price) →
          (lookup (considerSeq (considerCandidate mp (toCandidate p now)) cs)
            p.name).map (fun x => x.price) = some 0) := by
  obtain ⟨d, hd'⟩ : ∃ d, (it.detailDtoList.getD [emptyDetail]).head? = some d := by
    cases hdl : it.detailDtoList with
    | none => exact ⟨emptyDetail, rfl⟩
    | some l =>
      cases l with
      | nil => exact absurd hdl hd
      | cons a t => exact ⟨a, rfl⟩
  refine ⟨mkProduct (it.c2cItemsId.getD "") d 0, ?_, ?_, ?_⟩
  · unfold normalizeItem
    rw [hd', hp]
  · norm_num [mkProduct]
  · intro h0 cs hcs
    have hc0 : (toCandidate (mkProduct (it.c2cItemsId.getD "") d 0) now).price = 0 := by
      norm_num [toCandidate, mkProduct]
    obtain ⟨r1, hr1, hr10⟩ := consider_zero_sets mp
      (toCandidate (mkProduct (it.c2cItemsId.getD "") d 0) now) hc0 h0
    obtain ⟨r2, hr2, hr20⟩ := zero_floor_stays cs
      (considerCandidate mp (toCandidate (mkProduct (it.c2cItemsId.getD "") d 0) now))
      (mkProduct (it.c2cItemsId.getD "") d 0).name ⟨r1, hr1, hr10⟩ hcs
    rw [hr2]
    simp [hr20]

/-- Witness for C10: an item with no price field and no detail list. -/
theorem C10_absent_price_floor_witness :
    rawNoPrice.price = PriceField.absent ∧
    rawNoPrice.detailDtoList ≠ some [] ∧
    (∃ p, normalizeItem rawNoPrice = .ok p ∧ p.price = 0 ∧
      ((∀ r, lookup ([] : DictMap MinPriceRecord) p.name = some r → 0 ≤ r.price) →
        ∀ cs : List Candidate, (∀ c ∈ cs, 0 ≤ c.price) →
          (lookup (considerSeq (considerCandidate [] (toCandidate p 0)) cs)
            p.name).map (fun x => x.price) = some 0)) :=
  ⟨rfl, by decide, C10_absent_price_floor rawNoPrice [] 0 rfl (by decide)⟩

end BiliMall
